import Mathlib

/-!
# Verification of the RPN post-processing pipeline of of-maskrcnn-benchmark

Shallow embedding of the four source files

* `maskrcnn_benchmark/modeling/rpn/inference.py` (`RPNPostProcessor`),
* `maskrcnn_benchmark/utils/tensor_saver.py` (`TensorSaver`),
* `maskrcnn_benchmark/engine/inference.py`
  (`_accumulate_predictions_from_multiple_gpus`),
* `maskrcnn_benchmark/engine/trainer.py` (`do_train`, call sites only),

over lists and rationals.  Tensors `[N, A*H*W]` become `List (List ℚ)`,
boxes become quadruples of rationals, and fallible Python code returns
`Except PyErr`.  `torch.topk(·, k, sorted=True)` is modelled as the stable
descending selection: indices ordered by score descending, ties broken by
the smaller original index first, truncated to `k`.  `torch.sigmoid` is a
transcendental map; every claim below depends on scores only through their
relative order, so it is modelled by an order-isomorphic rational
surrogate with range `(0, 1)` and the same strict monotonicity and
injectivity (hence the same tie structure).
-/

namespace MRCNN

/-- A box in `xyxy` (corner-corner) representation, rational coordinates. -/
structure Box where
  x1 : ℚ
  y1 : ℚ
  x2 : ℚ
  y2 : ℚ
deriving DecidableEq, Repr, Inhabited

/-- Modelled from the spec: the `BoxList` container of
`maskrcnn_benchmark/structures/bounding_box.py` (not shipped under `src/`):
an ordered box sequence for one image, the image size, and named per-box
field sequences aligned by index with the boxes.  The mode tag is fixed to
`xyxy`, the only mode the embedded code uses. -/
structure BoxList where
  boxes : List Box
  width : ℚ
  height : ℚ
  fields : List (String × List ℚ)
deriving DecidableEq, Repr, Inhabited

/-- `boxlist.get_field(name)` (missing fields read as the empty sequence). -/
def getField (bl : BoxList) (name : String) : List ℚ :=
  (bl.fields.lookup name).getD []

/-- `boxlist.add_field(name, vals)`: the new binding shadows an old one. -/
def addField (bl : BoxList) (name : String) (vals : List ℚ) : BoxList :=
  { bl with fields := (name, vals) :: bl.fields.filter (fun f => f.1 ≠ name) }

/-- Modelled from the spec: `BoxList.__getitem__` with an index sequence
(`boxlists[i][inds_sorted]`): reorders boxes and every field by the same
index permutation. -/
def selectIdx (bl : BoxList) (idxs : List Nat) : BoxList :=
  { bl with
    boxes := idxs.map (fun i => bl.boxes.getD i default)
    fields := bl.fields.map (fun f => (f.1, idxs.map (fun i => f.2.getD i 0))) }

/-- Modelled from the spec: `BoxList.__getitem__` with a boolean mask
(`boxlists[i][inds_mask[i]]`): keeps boxes (and field entries) at the
positions where the mask is true, in their original order. -/
def selectMask (bl : BoxList) (mask : List Bool) : BoxList :=
  { bl with
    boxes := ((bl.boxes.zip mask).filter (fun p => p.2)).map (fun p => p.1)
    fields := bl.fields.map
      (fun f => (f.1, ((f.2.zip mask).filter (fun p => p.2)).map (fun p => p.1))) }

/-- Score lookup used by the `torch.topk` model: out-of-range reads as `0`
(never exercised: every produced index is in range). -/
def scoreAt (s : List ℚ) (i : Nat) : ℚ :=
  s.getD i 0

/-- The comparison realising `torch.topk(·, sorted=True)`'s output order:
index `i` precedes `j` when its score is strictly larger, or the scores tie
and `i` is the smaller original index (stable ties). -/
def descLE (s : List ℚ) (i j : Nat) : Bool :=
  decide (scoreAt s j < scoreAt s i) ||
    (decide (scoreAt s i = scoreAt s j) && decide (i ≤ j))

/-- All indices of `s`, sorted by score descending with stable ties. -/
def argsortDesc (s : List ℚ) : List Nat :=
  (List.range s.length).mergeSort (descLE s)

/-- `torch.topk(s, k, sorted=True).indices` of a one-dimensional tensor. -/
def topk (s : List ℚ) (k : Nat) : List Nat :=
  (argsortDesc s).take k

/-- `torch.topk(s, k, sorted=True).values`. -/
def topkValues (s : List ℚ) (k : Nat) : List ℚ :=
  (topk s k).map (scoreAt s)

theorem descLE_trans (s : List ℚ) : ∀ a b c : Nat,
    descLE s a b = true → descLE s b c = true → descLE s a c = true := by
  intro a b c hab hbc
  simp only [descLE, Bool.or_eq_true, Bool.and_eq_true, decide_eq_true_eq] at *
  rcases hab with h1 | ⟨h1, h1'⟩ <;> rcases hbc with h2 | ⟨h2, h2'⟩
  · exact Or.inl (lt_trans h2 h1)
  · exact Or.inl (h2 ▸ h1)
  · exact Or.inl (h1 ▸ h2)
  · exact Or.inr ⟨h1.trans h2, le_trans h1' h2'⟩

theorem descLE_total (s : List ℚ) : ∀ a b : Nat,
    (descLE s a b || descLE s b a) = true := by
  intro a b
  simp only [descLE, Bool.or_eq_true, Bool.and_eq_true, decide_eq_true_eq]
  rcases lt_trichotomy (scoreAt s a) (scoreAt s b) with h | h | h
  · exact Or.inr (Or.inl h)
  · rcases Nat.le_total a b with hab | hab
    · exact Or.inl (Or.inr ⟨h, hab⟩)
    · exact Or.inr (Or.inr ⟨h.symm, hab⟩)
  · exact Or.inl (Or.inl h)

theorem argsortDesc_perm (s : List ℚ) :
    (argsortDesc s).Perm (List.range s.length) :=
  List.mergeSort_perm _ _

theorem argsortDesc_nodup (s : List ℚ) : (argsortDesc s).Nodup :=
  (List.nodup_range _).perm (argsortDesc_perm s).symm

theorem argsortDesc_length (s : List ℚ) :
    (argsortDesc s).length = s.length := by
  simpa using (argsortDesc_perm s).length_eq

theorem argsortDesc_mem_lt (s : List ℚ) {j : Nat}
    (h : j ∈ argsortDesc s) : j < s.length := by
  have := (argsortDesc_perm s).mem_iff.mp h
  simpa using this

theorem argsortDesc_sorted (s : List ℚ) :
    (argsortDesc s).Pairwise (fun i j => descLE s i j = true) :=
  List.sorted_mergeSort (descLE_trans s) (descLE_total s) _

theorem topk_length (s : List ℚ) (k : Nat) :
    (topk s k).length = min k s.length := by
  simp [topk, argsortDesc_length]

theorem topk_nodup (s : List ℚ) (k : Nat) : (topk s k).Nodup :=
  (argsortDesc_nodup s).sublist (List.take_sublist _ _)

theorem topk_mem_lt (s : List ℚ) (k : Nat) {j : Nat}
    (h : j ∈ topk s k) : j < s.length :=
  argsortDesc_mem_lt s (List.take_subset _ _ h)

theorem topk_sorted (s : List ℚ) (k : Nat) :
    (topk s k).Pairwise (fun i j => descLE s i j = true) :=
  (argsortDesc_sorted s).sublist (List.take_sublist _ _)

theorem topk_all (s : List ℚ) (k : Nat) (h : s.length ≤ k) :
    (topk s k).Perm (List.range s.length) := by
  have : topk s k = argsortDesc s := by
    apply List.take_of_length_le
    simpa [argsortDesc_length] using h
  rw [this]
  exact argsortDesc_perm s

/-! ## `RPNPostProcessor.select_over_all_levels`
(`maskrcnn_benchmark/modeling/rpn/inference.py:207`) -/

/-- The configuration fields of `RPNPostProcessor.__init__` the embedded
methods read. -/
structure RPNConfig where
  pre_nms_top_n : Nat
  post_nms_top_n : Nat
  nms_thresh : ℚ
  min_size : ℚ
  fpn_post_nms_top_n : Nat
  fpn_post_nms_per_batch : Bool
deriving Repr

/-- `tensor.split(box_sizes)`: cut a flat list into consecutive segments of
the given sizes. -/
def splitSizes {α : Type} : List α → List Nat → List (List α)
  | _, [] => []
  | l, n :: ns => l.take n :: splitSizes (l.drop n) ns

/-- `RPNPostProcessor.select_over_all_levels(self, boxlists)`.  In training
mode with the batch-wide policy it pools `objectness` over the whole batch,
marks the global top `min(fpn_post_nms_top_n, total)` candidates in a mask,
splits the mask back per image and keeps each image's marked candidates;
otherwise it takes each image's own top
`min(fpn_post_nms_top_n, len)` candidates, reordered by score. -/
def select_over_all_levels (cfg : RPNConfig) (training : Bool)
    (boxlists : List BoxList) : List BoxList :=
  if training && cfg.fpn_post_nms_per_batch then
    (boxlists.zip
      (splitSizes
        ((List.range
            ((boxlists.map (fun bl => getField bl "objectness")).flatten.length)).map
          (fun j => decide (j ∈
            topk (boxlists.map (fun bl => getField bl "objectness")).flatten
              (min cfg.fpn_post_nms_top_n
                (boxlists.map (fun bl => getField bl "objectness")).flatten.length))))
        (boxlists.map (fun bl => bl.boxes.length)))).map
      (fun p => selectMask p.1 p.2)
  else
    boxlists.map (fun bl =>
      selectIdx bl
        (topk (getField bl "objectness")
          (min cfg.fpn_post_nms_top_n (getField bl "objectness").length)))

theorem zip_filter_snd_length {α : Type} (xs : List α) (m : List Bool)
    (h : xs.length = m.length) :
    (((xs.zip m).filter (fun p => p.2)).map (fun p => p.1)).length = m.count true := by
  induction xs generalizing m with
  | nil =>
      have : m = [] := List.eq_nil_of_length_eq_zero (by simpa using h.symm)
      subst this
      simp
  | cons x rest ih =>
      match m with
      | [] => simp at h
      | b :: mrest =>
          have h' : rest.length = mrest.length := by simpa using h
          cases b with
          | false => simpa [List.count_cons] using ih mrest h'
          | true => simpa [List.count_cons] using ih mrest h'

theorem splitSizes_length {α : Type} (l : List α) (sizes : List Nat) :
    (splitSizes l sizes).length = sizes.length := by
  induction sizes generalizing l with
  | nil => rfl
  | cons n ns ih => simp [splitSizes, ih]

theorem splitSizes_getElem {α : Type} (sizes : List Nat) (l : List α)
    (i : Nat) (hi : i < sizes.length) (hl : i < (splitSizes l sizes).length) :
    (splitSizes l sizes)[i] =
      (l.drop ((sizes.take i).sum)).take (sizes.getD i 0) := by
  induction sizes generalizing l i with
  | nil => simp at hi
  | cons n ns ih =>
      match i with
      | 0 => simp [splitSizes]
      | Nat.succ j =>
          have hj : j < ns.length := by simpa using hi
          have hl' : j < (splitSizes (l.drop n) ns).length := by
            rw [splitSizes_length]
            exact hj
          have := ih (l.drop n) j hj hl'
          simp only [splitSizes, List.getElem_cons_succ]
          rw [this, List.drop_drop]
          simp [Nat.add_comm]

theorem sum_selectMask_lengths : ∀ (bs : List BoxList) (m : List Bool),
    m.length = (bs.map (fun bl => bl.boxes.length)).sum →
    (((bs.zip (splitSizes m (bs.map (fun bl => bl.boxes.length)))).map
        (fun p => (selectMask p.1 p.2).boxes.length)).sum = m.count true) := by
  intro bs
  induction bs with
  | nil =>
      intro m hm
      have : m = [] := List.eq_nil_of_length_eq_zero (by simpa using hm)
      subst this
      simp
  | cons b rest ih =>
      intro m hm
      simp only [List.map_cons, List.sum_cons] at hm
      have htake : (m.take b.boxes.length).length = b.boxes.length := by
        rw [List.length_take]
        omega
      have hdrop : (m.drop b.boxes.length).length =
          (rest.map (fun bl => bl.boxes.length)).sum := by
        rw [List.length_drop]
        omega
      simp only [List.map_cons, splitSizes, List.zip_cons_cons, List.sum_cons]
      rw [ih (m.drop b.boxes.length) hdrop]
      have hsel : (selectMask b (m.take b.boxes.length)).boxes.length =
          (m.take b.boxes.length).count true :=
        zip_filter_snd_length _ _ htake.symm
      rw [hsel]
      conv_rhs => rw [← List.take_append_drop b.boxes.length m]
      rw [List.count_append]

theorem count_true_mem_mask (inds : List Nat) (n : Nat) (hnd : inds.Nodup)
    (hlt : ∀ j ∈ inds, j < n) :
    ((List.range n).map (fun j => decide (j ∈ inds))).count true = inds.length := by
  rw [List.count_eq_countP, List.countP_map]
  have : ((List.range n).countP ((fun x => x == true) ∘ fun j => decide (j ∈ inds)))
      = ((List.range n).filter (fun j => decide (j ∈ inds))).length := by
    rw [← List.countP_eq_length_filter]
    refine List.countP_congr ?_
    intro j _
    simp [Function.comp]
  rw [this]
  have hperm : ((List.range n).filter (fun j => decide (j ∈ inds))).Perm inds := by
    rw [List.perm_ext_iff_of_nodup ((List.nodup_range n).filter _) hnd]
    intro a
    simp only [List.mem_filter, List.mem_range, decide_eq_true_eq]
    constructor
    · exact fun h => h.2
    · exact fun h => ⟨hlt a h, h⟩
  exact hperm.length_eq

theorem range_map_drop_take {β : Type} (f : Nat → β) (n off len : Nat)
    (h : off + len ≤ n) :
    (((List.range n).map f).drop off).take len =
      (List.range len).map (fun p => f (off + p)) := by
  refine List.ext_getElem ?_ ?_
  · simp only [List.length_take, List.length_drop, List.length_map,
      List.length_range]
    omega
  · intro i h1 h2
    rw [List.getElem_take, List.getElem_drop, List.getElem_map,
      List.getElem_range, List.getElem_map, List.getElem_range]

theorem getD_map_of_lt {α β : Type} (f : α → β) (l : List α) {i : Nat}
    (h : i < l.length) (d : β) (d' : α) :
    (l.map f).getD i d = f (l.getD i d') := by
  rw [List.getD_eq_getElem _ _ (show i < (l.map f).length by
      rw [List.length_map]; exact h),
    List.getD_eq_getElem _ _ h, List.getElem_map]

theorem getD_zip_of_lt {α β : Type} (l1 : List α) (l2 : List β) {i : Nat}
    (h1 : i < l1.length) (h2 : i < l2.length) (d : α × β) (da : α) (db : β) :
    (l1.zip l2).getD i d = (l1.getD i da, l2.getD i db) := by
  rw [List.getD_eq_getElem _ _ (show i < (l1.zip l2).length by
      rw [List.length_zip]; omega),
    List.getD_eq_getElem _ _ h1, List.getD_eq_getElem _ _ h2,
    List.getElem_zip]

theorem splitSizes_getD {α : Type} (sizes : List Nat) (l : List α) (i : Nat)
    (hi : i < sizes.length) :
    (splitSizes l sizes).getD i [] =
      (l.drop ((sizes.take i).sum)).take (sizes.getD i 0) := by
  have hl : i < (splitSizes l sizes).length := by
    rw [splitSizes_length]; exact hi
  rw [List.getD_eq_getElem _ _ hl, splitSizes_getElem sizes l i hi hl]

theorem lookup_map_snd {β γ : Type} (l : List (String × β))
    (g : String → β → γ) (name : String) :
    (l.map (fun f => (f.1, g f.1 f.2))).lookup name =
      (l.lookup name).map (fun v => g name v) := by
  induction l with
  | nil => rfl
  | cons e rest ih =>
      by_cases h : name = e.1
      · simp [List.lookup, h]
      · have hb : (name == e.1) = false := by simpa using h
        simp [List.lookup, hb, ih]

theorem getField_selectIdx (bl : BoxList) (idxs : List Nat) (name : String) :
    getField (selectIdx bl idxs) name =
      match bl.fields.lookup name with
      | none => []
      | some v => idxs.map (fun i => v.getD i 0) := by
  rw [getField, selectIdx]
  simp only
  rw [lookup_map_snd bl.fields (fun _ v => idxs.map (fun i => v.getD i 0)) name]
  cases bl.fields.lookup name <;> simp

/-- C1: in training mode with the batch-wide policy,
`select_over_all_levels` pools objectness over the batch, keeps globally
the stable top `min(fpn_post_nms_top_n, total)` candidates, and hands each
survivor back to its originating image: the survivors across the whole
batch number exactly `min(fpn_post_nms_top_n, total)` (hence at most
`fpn_post_nms_top_n`), and image `i` keeps precisely its candidates whose
global pooled index was selected. -/
theorem select_over_all_levels_batch_spec (cfg : RPNConfig) (bs : List BoxList)
    (hpb : cfg.fpn_post_nms_per_batch = true)
    (hlen : ∀ bl ∈ bs, (getField bl "objectness").length = bl.boxes.length) :
    (((select_over_all_levels cfg true bs).map (fun bl => bl.boxes.length)).sum =
      min cfg.fpn_post_nms_top_n
        (bs.map (fun bl => getField bl "objectness")).flatten.length) ∧
    (((select_over_all_levels cfg true bs).map (fun bl => bl.boxes.length)).sum ≤
      cfg.fpn_post_nms_top_n) ∧
    ((select_over_all_levels cfg true bs).length = bs.length) ∧
    (∀ i, i < bs.length →
      (select_over_all_levels cfg true bs).getD i default =
        selectMask (bs.getD i default)
          ((List.range (bs.getD i default).boxes.length).map
            (fun p => decide
              ((((bs.take i).map (fun bl => bl.boxes.length)).sum + p) ∈
                topk (bs.map (fun bl => getField bl "objectness")).flatten
                  (min cfg.fpn_post_nms_top_n
                    (bs.map (fun bl => getField bl "objectness")).flatten.length))))) := by
  have htotal : (bs.map (fun bl => getField bl "objectness")).flatten.length =
      (bs.map (fun bl => bl.boxes.length)).sum := by
    rw [List.length_flatten, List.map_map]
    congr 1
    refine List.map_congr_left ?_
    intro bl hbl
    simp only [Function.comp_apply]
    exact hlen bl hbl
  have hsel : select_over_all_levels cfg true bs =
      (bs.zip
        (splitSizes
          ((List.range
              ((bs.map (fun bl => getField bl "objectness")).flatten.length)).map
            (fun j => decide (j ∈
              topk (bs.map (fun bl => getField bl "objectness")).flatten
                (min cfg.fpn_post_nms_top_n
                  (bs.map (fun bl => getField bl "objectness")).flatten.length))))
          (bs.map (fun bl => bl.boxes.length)))).map
        (fun p => selectMask p.1 p.2) := by
    simp only [select_over_all_levels, hpb, Bool.and_self, if_true]
  have hmasklen :
      ((List.range
          ((bs.map (fun bl => getField bl "objectness")).flatten.length)).map
        (fun j => decide (j ∈
          topk (bs.map (fun bl => getField bl "objectness")).flatten
            (min cfg.fpn_post_nms_top_n
              (bs.map (fun bl => getField bl "objectness")).flatten.length)))).length =
      (bs.map (fun bl => bl.boxes.length)).sum := by
    rw [List.length_map, List.length_range, htotal]
  have hkk : min cfg.fpn_post_nms_top_n
      (bs.map (fun bl => getField bl "objectness")).flatten.length ≤
      (bs.map (fun bl => getField bl "objectness")).flatten.length :=
    Nat.min_le_right _ _
  have hcount : (((select_over_all_levels cfg true bs).map
      (fun bl => bl.boxes.length)).sum =
      min cfg.fpn_post_nms_top_n
        (bs.map (fun bl => getField bl "objectness")).flatten.length) := by
    rw [hsel, List.map_map]
    simp only [Function.comp_def]
    have := sum_selectMask_lengths bs
      ((List.range
          ((bs.map (fun bl => getField bl "objectness")).flatten.length)).map
        (fun j => decide (j ∈
          topk (bs.map (fun bl => getField bl "objectness")).flatten
            (min cfg.fpn_post_nms_top_n
              (bs.map (fun bl => getField bl "objectness")).flatten.length))))
      hmasklen
    rw [this]
    rw [count_true_mem_mask _ _ (topk_nodup _ _) (fun j hj => topk_mem_lt _ _ hj)]
    rw [topk_length]
    exact Nat.min_eq_left hkk
  refine ⟨hcount, ?_, ?_, ?_⟩
  · rw [hcount]
    exact Nat.min_le_left _ _
  · rw [hsel, List.length_map, List.length_zip, splitSizes_length,
      List.length_map]
    omega
  · intro i hi
    have houtlen : (select_over_all_levels cfg true bs).length = bs.length := by
      rw [hsel, List.length_map, List.length_zip, splitSizes_length,
        List.length_map]
      omega
    have hsizes : i < (bs.map (fun bl => bl.boxes.length)).length := by
      rw [List.length_map]; exact hi
    have hsplit : i < (splitSizes
        ((List.range
            ((bs.map (fun bl => getField bl "objectness")).flatten.length)).map
          (fun j => decide (j ∈
            topk (bs.map (fun bl => getField bl "objectness")).flatten
              (min cfg.fpn_post_nms_top_n
                (bs.map (fun bl => getField bl "objectness")).flatten.length))))
        (bs.map (fun bl => bl.boxes.length))).length := by
      rw [splitSizes_length, List.length_map]; exact hi
    have hziplen : i < (bs.zip
        (splitSizes
          ((List.range
              ((bs.map (fun bl => getField bl "objectness")).flatten.length)).map
            (fun j => decide (j ∈
              topk (bs.map (fun bl => getField bl "objectness")).flatten
                (min cfg.fpn_post_nms_top_n
                  (bs.map (fun bl => getField bl "objectness")).flatten.length))))
          (bs.map (fun bl => bl.boxes.length)))).length := by
      rw [List.length_zip, splitSizes_length, List.length_map]
      omega
    rw [hsel]
    rw [getD_map_of_lt _ _ hziplen default (default, [])]
    rw [getD_zip_of_lt _ _ hi hsplit (default, []) default []]
    dsimp only
    congr 1
    rw [splitSizes_getD _ _ i hsizes]
    have hszget : (bs.map (fun bl => bl.boxes.length)).getD i 0 =
        (bs.getD i default).boxes.length := by
      rw [getD_map_of_lt _ _ hi 0 default]
    have hbound : ((bs.map (fun bl => bl.boxes.length)).take i).sum +
        (bs.getD i default).boxes.length ≤
        (bs.map (fun bl => getField bl "objectness")).flatten.length := by
      rw [htotal]
      have h1 := List.sum_take_succ (bs.map (fun bl => bl.boxes.length)) i hsizes
      have h2 := hszget
      rw [List.getD_eq_getElem _ _ hsizes] at h2
      have h3 : ((bs.map (fun bl => bl.boxes.length)).take (i + 1)).sum ≤
          (bs.map (fun bl => bl.boxes.length)).sum := by
        conv_rhs =>
          rw [← List.take_append_drop (i + 1) (bs.map (fun bl => bl.boxes.length))]
        rw [List.sum_append]
        exact Nat.le_add_right _ _
      omega
    rw [hszget]
    rw [range_map_drop_take _ _ _ _ hbound]
    simp only [← List.map_take]

/-- Witness for C1: the spec's scenario — training, batch-wide policy, two
images of five candidates each and `fpn_post_nms_top_n = 6` (scores all
distinct, the six best spread over both images). -/
theorem select_over_all_levels_batch_spec_witness :
    ((RPNConfig.mk 100 100 (7/10) 0 6 true).fpn_post_nms_per_batch = true ∧
      ∀ bl ∈ [BoxList.mk
          [Box.mk 0 0 1 1, Box.mk 2 0 3 1, Box.mk 4 0 5 1, Box.mk 6 0 7 1,
            Box.mk 8 0 9 1] 10 10
          [("objectness", [9/10, 1/10, 8/10, 3/10, 7/10])],
        BoxList.mk
          [Box.mk 0 2 1 3, Box.mk 2 2 3 3, Box.mk 4 2 5 3, Box.mk 6 2 7 3,
            Box.mk 8 2 9 3] 10 10
          [("objectness", [6/10, 2/10, 85/100, 4/10, 95/100])]],
        (getField bl "objectness").length = bl.boxes.length) ∧
    ((select_over_all_levels (RPNConfig.mk 100 100 (7/10) 0 6 true) true
        [BoxList.mk
          [Box.mk 0 0 1 1, Box.mk 2 0 3 1, Box.mk 4 0 5 1, Box.mk 6 0 7 1,
            Box.mk 8 0 9 1] 10 10
          [("objectness", [9/10, 1/10, 8/10, 3/10, 7/10])],
        BoxList.mk
          [Box.mk 0 2 1 3, Box.mk 2 2 3 3, Box.mk 4 2 5 3, Box.mk 6 2 7 3,
            Box.mk 8 2 9 3] 10 10
          [("objectness", [6/10, 2/10, 85/100, 4/10, 95/100])]]).map
        (fun bl => bl.boxes.length)).sum =
      min 6
        ([BoxList.mk
            [Box.mk 0 0 1 1, Box.mk 2 0 3 1, Box.mk 4 0 5 1, Box.mk 6 0 7 1,
              Box.mk 8 0 9 1] 10 10
            [("objectness", [9/10, 1/10, 8/10, 3/10, 7/10])],
          BoxList.mk
            [Box.mk 0 2 1 3, Box.mk 2 2 3 3, Box.mk 4 2 5 3, Box.mk 6 2 7 3,
              Box.mk 8 2 9 3] 10 10
            [("objectness", [6/10, 2/10, 85/100, 4/10, 95/100])]].map
          (fun bl => getField bl "objectness")).flatten.length :=
  ⟨⟨rfl, by decide⟩,
    (select_over_all_levels_batch_spec (RPNConfig.mk 100 100 (7/10) 0 6 true)
      [BoxList.mk
        [Box.mk 0 0 1 1, Box.mk 2 0 3 1, Box.mk 4 0 5 1, Box.mk 6 0 7 1,
          Box.mk 8 0 9 1] 10 10
        [("objectness", [9/10, 1/10, 8/10, 3/10, 7/10])],
      BoxList.mk
        [Box.mk 0 2 1 3, Box.mk 2 2 3 3, Box.mk 4 2 5 3, Box.mk 6 2 7 3,
          Box.mk 8 2 9 3] 10 10
        [("objectness", [6/10, 2/10, 85/100, 4/10, 95/100])]] rfl
      (by decide)).1⟩

/-- C5: in inference mode, or in training with the per-image policy,
`select_over_all_levels` independently gives each image its own top
`min(fpn_post_nms_top_n, number of candidates)` boxes in objectness-descending
order, so each per-image output size is at most `fpn_post_nms_top_n`. -/
theorem select_over_all_levels_per_image_spec (cfg : RPNConfig)
    (training : Bool) (bs : List BoxList)
    (hmode : training = false ∨ cfg.fpn_post_nms_per_batch = false)
    (hlen : ∀ bl ∈ bs, (getField bl "objectness").length = bl.boxes.length) :
    (select_over_all_levels cfg training bs).length = bs.length ∧
    ∀ i, i < bs.length →
      (select_over_all_levels cfg training bs).getD i default =
        selectIdx (bs.getD i default)
          (topk (getField (bs.getD i default) "objectness")
            (min cfg.fpn_post_nms_top_n
              (getField (bs.getD i default) "objectness").length)) ∧
      ((select_over_all_levels cfg training bs).getD i default).boxes.length =
        min cfg.fpn_post_nms_top_n (bs.getD i default).boxes.length ∧
      ((select_over_all_levels cfg training bs).getD i default).boxes.length ≤
        cfg.fpn_post_nms_top_n ∧
      (topkValues (getField (bs.getD i default) "objectness")
        (min cfg.fpn_post_nms_top_n
          (getField (bs.getD i default) "objectness").length)).Pairwise
        (· ≥ ·) := by
  have hcond : (training && cfg.fpn_post_nms_per_batch) = false := by
    rcases hmode with h | h <;> simp [h]
  have hsel : select_over_all_levels cfg training bs =
      bs.map (fun bl =>
        selectIdx bl
          (topk (getField bl "objectness")
            (min cfg.fpn_post_nms_top_n (getField bl "objectness").length))) := by
    rw [select_over_all_levels, hcond]
    simp
  have hlength : (select_over_all_levels cfg training bs).length = bs.length := by
    rw [hsel, List.length_map]
  refine ⟨hlength, ?_⟩
  intro i hi
  have hio : i < (select_over_all_levels cfg training bs).length := by
    rw [hlength]; exact hi
  have hgd : (select_over_all_levels cfg training bs).getD i default =
      selectIdx (bs.getD i default)
        (topk (getField (bs.getD i default) "objectness")
          (min cfg.fpn_post_nms_top_n
            (getField (bs.getD i default) "objectness").length)) := by
    rw [List.getD_eq_getElem _ _ hio, List.getD_eq_getElem _ _ hi]
    simp only [hsel]
    rw [List.getElem_map]
  refine ⟨hgd, ?_, ?_, ?_⟩
  · rw [hgd, selectIdx]
    simp only [List.length_map]
    rw [topk_length]
    have hfl : (getField (bs.getD i default) "objectness").length =
        (bs.getD i default).boxes.length := by
      refine hlen _ ?_
      rw [List.getD_eq_getElem _ _ hi]
      exact List.getElem_mem hi
    omega
  · rw [hgd, selectIdx]
    simp only [List.length_map]
    rw [topk_length]
    omega
  · refine List.Pairwise.map _ ?_ (topk_sorted _ _)
    intro a b h
    rw [descLE] at h
    simp only [Bool.or_eq_true, Bool.and_eq_true, decide_eq_true_eq] at h
    rcases h with h | ⟨h, _⟩
    · exact le_of_lt h
    · exact le_of_eq h.symm

/-- Witness for C5: inference mode, one image with three candidates and
`fpn_post_nms_top_n = 2`. -/
theorem select_over_all_levels_per_image_spec_witness :
    ((false = false ∨
        (RPNConfig.mk 100 100 (7/10) 0 2 true).fpn_post_nms_per_batch = false) ∧
      ∀ bl ∈ [BoxList.mk [Box.mk 0 0 1 1, Box.mk 2 0 3 1, Box.mk 4 0 5 1] 10 10
          [("objectness", [1/2, 3/4, 1/4])]],
        (getField bl "objectness").length = bl.boxes.length) ∧
    ((select_over_all_levels (RPNConfig.mk 100 100 (7/10) 0 2 true) false
        [BoxList.mk [Box.mk 0 0 1 1, Box.mk 2 0 3 1, Box.mk 4 0 5 1] 10 10
          [("objectness", [1/2, 3/4, 1/4])]]).length =
      [BoxList.mk [Box.mk 0 0 1 1, Box.mk 2 0 3 1, Box.mk 4 0 5 1] 10 10
          [("objectness", [1/2, 3/4, 1/4])]].length) :=
  ⟨⟨Or.inl rfl, by decide⟩,
    (select_over_all_levels_per_image_spec (RPNConfig.mk 100 100 (7/10) 0 2 true)
      false
      [BoxList.mk [Box.mk 0 0 1 1, Box.mk 2 0 3 1, Box.mk 4 0 5 1] 10 10
        [("objectness", [1/2, 3/4, 1/4])]] (Or.inl rfl) (by decide)).1⟩

/-! ## `maskrcnn_benchmark/utils/tensor_saver.py` -/

/-- Python exception kinds the embedded code can raise. -/
inductive PyErr where
  | indexError
  | typeError
  | exception
deriving DecidableEq, Repr

/-- The state of the `TensorSaver` singleton: `__init__` stores `base_dir`
and `iteration`. -/
structure TensorSaver where
  base_dir : String
  iteration : Int
deriving DecidableEq, Repr

/-- Python truthiness of the `iteration` argument of `TensorSaver.step`
(`None` and `0` are falsy, every other int truthy). -/
def pyTruthy : Option Int → Bool
  | none => false
  | some k => k != 0

/-- `TensorSaver.step(self, iteration=None)`:
`if iteration: self.iteration = iteration else: self.iteration += 1`. -/
def TensorSaver.step (s : TensorSaver) (iteration : Option Int) : TensorSaver :=
  if pyTruthy iteration then { s with iteration := iteration.getD 0 }
  else { s with iteration := s.iteration + 1 }

/-! ### Python keyword-argument binding

`create_tensor_saver(base_dir, iteration=0)` and
`TensorSaver.save(self, tensor, tensor_name, scope=None, save_grad=False)`
have fixed parameter lists; a call supplying a keyword argument outside the
parameter list raises `TypeError` during argument binding, before the
function body (and hence any file write) runs. -/

/-- The keyword parameter names `create_tensor_saver` accepts. -/
def createTensorSaverParams : List String :=
  ["base_dir", "iteration"]

/-- The keyword parameter names `TensorSaver.save` accepts (`self` excluded). -/
def saveParams : List String :=
  ["tensor", "tensor_name", "scope", "save_grad"]

/-- A call with parameter list `params` and supplied keyword names
`kwnames`; `body` is the list of files the function body would write.
Binding fails with `TypeError` (no file written) on any unexpected
keyword. -/
def pythonCall (params kwnames : List String) (body : List String) :
    Except PyErr (List String) :=
  if kwnames.all (fun k => params.contains k) then Except.ok body
  else Except.error PyErr.typeError

/-- Keyword names of the `create_tensor_saver(training=True/False,
base_dir=..., iteration=..., max_iter=...)` calls in
`engine/trainer.py:69` and `engine/inference.py:114`. -/
def driverCreateKwargs : List String :=
  ["training", "base_dir", "iteration", "max_iter"]

/-- Keyword names supplied by the RPN decoder's
`save(boxlist.bbox, 'after_remove_small_boxes', 'rpn', level=level,
im_idx=im_i)` calls at `modeling/rpn/inference.py:155` (the first three
arguments are positional). -/
def rpnSaveKwargs : List String :=
  ["level", "im_idx"]

/-! ## `maskrcnn_benchmark/engine/inference.py` :
`_accumulate_predictions_from_multiple_gpus`

Python dicts keyed by image id become association lists with unique keys;
`dict.update` overwrites existing keys in place and appends fresh keys in
insertion order, which is how Python preserves key order. -/

/-- The key sequence of a dict. -/
def dictKeys {α : Type} (d : List (Nat × α)) : List Nat :=
  d.map (fun e => e.1)

/-- `d[k] = v` on a Python dict: overwrite in place, or append a new key. -/
def dictSet {α : Type} (d : List (Nat × α)) (kv : Nat × α) : List (Nat × α) :=
  if kv.1 ∈ dictKeys d then d.map (fun e => if e.1 = kv.1 then kv else e)
  else d ++ [kv]

/-- `d.update(p)`: set every binding of `p` in order. -/
def dictUpdate {α : Type} (d p : List (Nat × α)) : List (Nat × α) :=
  p.foldl dictSet d

/-- `predictions = {}; for p in all_predictions: predictions.update(p)`. -/
def mergedPredictions {α : Type} (gathered : List (List (Nat × α))) :
    List (Nat × α) :=
  gathered.foldl dictUpdate []

/-- `image_ids = list(sorted(predictions.keys()))`. -/
def gatheredImageIds {α : Type} (gathered : List (List (Nat × α))) : List Nat :=
  (dictKeys (mergedPredictions gathered)).mergeSort (fun a b => decide (a ≤ b))

/-- `len(image_ids) != image_ids[-1] + 1`, the condition under which the
main process logs the missing-images warning (`image_ids[-1]` raises
`IndexError` when empty; the empty case is split off in
`accumulatePredictions`). -/
def nonContiguousWarning {α : Type} (gathered : List (List (Nat × α))) : Bool :=
  (gatheredImageIds gathered).length != (gatheredImageIds gathered).getLastD 0 + 1

/-- `_accumulate_predictions_from_multiple_gpus` after the `all_gather`:
a non-main process returns `None` immediately; the main process merges the
gathered dicts, sorts the image ids, notes (but only logs) the
non-contiguity warning, and returns the merged predictions in id order. -/
def accumulatePredictions {α : Type} (isMain : Bool)
    (gathered : List (List (Nat × α))) : Except PyErr (Option (Bool × List α)) :=
  if isMain then
    if (gatheredImageIds gathered).isEmpty then Except.error PyErr.indexError
    else
      Except.ok (some (nonContiguousWarning gathered,
        (gatheredImageIds gathered).filterMap
          (fun i => (mergedPredictions gathered).lookup i)))
  else Except.ok none

theorem dictKeys_dictSet {α : Type} (d : List (Nat × α)) (kv : Nat × α) :
    dictKeys (dictSet d kv) =
      if kv.1 ∈ dictKeys d then dictKeys d else dictKeys d ++ [kv.1] := by
  by_cases h : kv.1 ∈ dictKeys d
  · rw [dictSet, if_pos h, if_pos h]
    unfold dictKeys
    rw [List.map_map]
    refine List.map_congr_left ?_
    intro e _
    by_cases he : e.1 = kv.1
    · simp [Function.comp, he]
    · simp [Function.comp, he]
  · rw [dictSet, if_neg h, if_neg h]
    simp [dictKeys]

theorem nodup_dictKeys_dictSet {α : Type} {d : List (Nat × α)} {kv : Nat × α}
    (h : (dictKeys d).Nodup) : (dictKeys (dictSet d kv)).Nodup := by
  rw [dictKeys_dictSet]
  by_cases hm : kv.1 ∈ dictKeys d
  · simpa [hm] using h
  · rw [if_neg hm]
    exact h.append (List.nodup_singleton _)
      (by simpa [List.disjoint_singleton] using hm)

theorem nodup_dictKeys_dictUpdate {α : Type} (p d : List (Nat × α))
    (h : (dictKeys d).Nodup) : (dictKeys (dictUpdate d p)).Nodup := by
  induction p generalizing d with
  | nil => simpa [dictUpdate] using h
  | cons kv rest ih =>
      have : dictUpdate d (kv :: rest) = dictUpdate (dictSet d kv) rest := rfl
      rw [this]
      exact ih _ (nodup_dictKeys_dictSet h)

theorem nodup_dictKeys_mergedPredictions {α : Type}
    (gathered : List (List (Nat × α))) :
    (dictKeys (mergedPredictions gathered)).Nodup := by
  have main : ∀ (gs : List (List (Nat × α))) (d : List (Nat × α)),
      (dictKeys d).Nodup → (dictKeys (gs.foldl dictUpdate d)).Nodup := by
    intro gs
    induction gs with
    | nil => intro d h; simpa using h
    | cons g rest ih =>
        intro d h
        exact ih _ (nodup_dictKeys_dictUpdate g d h)
  exact main gathered [] (by simp [dictKeys])

theorem lookup_isSome_of_mem_dictKeys {α : Type} {d : List (Nat × α)} {i : Nat}
    (h : i ∈ dictKeys d) : (d.lookup i).isSome := by
  rw [List.lookup_isSome_iff]
  simp only [dictKeys, List.mem_map] at h
  obtain ⟨p, hp, he⟩ := h
  exact ⟨p, hp, by simp [he]⟩

theorem gatheredImageIds_perm {α : Type} (gathered : List (List (Nat × α))) :
    (gatheredImageIds gathered).Perm (dictKeys (mergedPredictions gathered)) :=
  List.mergeSort_perm _ _

theorem gatheredImageIds_nodup {α : Type} (gathered : List (List (Nat × α))) :
    (gatheredImageIds gathered).Nodup :=
  (nodup_dictKeys_mergedPredictions gathered).perm
    (gatheredImageIds_perm gathered).symm

theorem gatheredImageIds_sorted {α : Type} (gathered : List (List (Nat × α))) :
    (gatheredImageIds gathered).Pairwise (· ≤ ·) := by
  have := @List.sorted_mergeSort Nat (fun a b : Nat => decide (a ≤ b))
    (by intro a b c h1 h2; simp only [decide_eq_true_eq] at *; omega)
    (by intro a b; simp only [Bool.or_eq_true, decide_eq_true_eq]; omega)
    (dictKeys (mergedPredictions gathered))
  refine this.imp ?_
  intro a b h
  simpa using h

theorem gatheredImageIds_strictSorted {α : Type}
    (gathered : List (List (Nat × α))) :
    (gatheredImageIds gathered).Pairwise (· < ·) := by
  have h1 := gatheredImageIds_sorted gathered
  have h2 : (gatheredImageIds gathered).Pairwise (· ≠ ·) :=
    gatheredImageIds_nodup gathered
  exact (h1.and h2).imp (fun h => lt_of_le_of_ne h.1 h.2)

theorem le_getLastD_of_mem {l : List ℕ} (hs : l.Pairwise (· ≤ ·)) {x : ℕ}
    (hx : x ∈ l) : x ≤ l.getLastD 0 := by
  have hne : l ≠ [] := List.ne_nil_of_mem hx
  rw [List.getLastD_eq_getLast?, List.getLast?_eq_getLast l hne,
    Option.getD_some, List.getLast_eq_getElem]
  obtain ⟨i, hi, hEq⟩ := List.mem_iff_getElem.mp hx
  subst hEq
  rcases Nat.lt_or_ge i (l.length - 1) with h | h
  · exact List.pairwise_iff_getElem.mp hs i (l.length - 1) hi (by omega) h
  · have : i = l.length - 1 := by omega
    subst this
    exact le_refl _

theorem getLastD_range (n : ℕ) (hn : 0 < n) :
    (List.range n).getLastD 0 = n - 1 := by
  obtain ⟨m, rfl⟩ := Nat.exists_eq_succ_of_ne_zero hn.ne'
  rw [List.range_succ, List.getLastD_eq_getLast?, List.getLast?_concat]
  simp

theorem strictSorted_contiguous_iff {l : List ℕ} (hs : l.Pairwise (· < ·))
    (hne : l ≠ []) :
    l.length = l.getLastD 0 + 1 ↔ l = List.range l.length := by
  haveI : IsAntisymm ℕ (· < ·) :=
    ⟨fun a b h1 h2 => absurd (h1.trans h2) (lt_irrefl a)⟩
  constructor
  · intro h
    have hnodup : l.Nodup := hs.imp Nat.ne_of_lt
    have hsub : l ⊆ List.range l.length := by
      intro x hx
      have hle : x ≤ l.getLastD 0 := le_getLastD_of_mem (hs.imp le_of_lt) hx
      rw [List.mem_range]
      omega
    obtain ⟨u, hup, husub⟩ := hnodup.subperm hsub
    have hlen : u.length = (List.range l.length).length := by
      rw [hup.length_eq]
      simp
    have hu : u = List.range l.length := husub.eq_of_length hlen
    subst hu
    exact List.eq_of_perm_of_sorted hup.symm hs (List.pairwise_lt_range _)
  · intro h
    have hpos : 0 < l.length := List.length_pos.mpr hne
    have hlast : l.getLastD 0 = l.length - 1 := by
      conv_lhs => rw [h]
      exact getLastD_range _ hpos
    omega

theorem filterMap_length_of_isSome {α β : Type} {f : α → Option β}
    {l : List α} (h : ∀ a ∈ l, (f a).isSome) :
    (l.filterMap f).length = l.length := by
  induction l with
  | nil => simp
  | cons a rest ih =>
      have ha := h a (by simp)
      obtain ⟨b, hb⟩ := Option.isSome_iff_exists.mp ha
      rw [List.filterMap_cons, hb]
      simp only [List.length_cons]
      rw [ih (fun x hx => h x (by simp [hx]))]

/-- C7: after the all-gather, a non-main process returns immediately with
no result; the main process (with a nonempty merged prediction dict)
returns, without raising, the gathered predictions in sorted image-id
order together with the warning flag, and the warning fires exactly when
the gathered image ids are not the contiguous range starting at 0; every
gathered image id contributes a prediction to the returned list. -/
theorem accumulate_predictions_spec {α : Type} (gathered : List (List (Nat × α)))
    (h : mergedPredictions gathered ≠ []) :
    accumulatePredictions false gathered = Except.ok none ∧
    accumulatePredictions true gathered =
      Except.ok (some (nonContiguousWarning gathered,
        (gatheredImageIds gathered).filterMap
          (fun i => (mergedPredictions gathered).lookup i))) ∧
    (nonContiguousWarning gathered = true ↔
      gatheredImageIds gathered ≠
        List.range (gatheredImageIds gathered).length) ∧
    ((gatheredImageIds gathered).filterMap
        (fun i => (mergedPredictions gathered).lookup i)).length =
      (gatheredImageIds gathered).length := by
  have hids : gatheredImageIds gathered ≠ [] := by
    intro hnil
    have hperm := gatheredImageIds_perm gathered
    rw [hnil] at hperm
    have : dictKeys (mergedPredictions gathered) = [] :=
      List.Perm.eq_nil hperm.symm
    exact h (by simpa [dictKeys] using this)
  refine ⟨rfl, ?_, ?_, ?_⟩
  · simp [accumulatePredictions, List.isEmpty_iff, hids]
  · rw [nonContiguousWarning, ne_eq, bne_iff_ne, ne_eq]
    rw [strictSorted_contiguous_iff (gatheredImageIds_strictSorted gathered) hids]
  · refine filterMap_length_of_isSome ?_
    intro i hi
    refine lookup_isSome_of_mem_dictKeys ?_
    exact (gatheredImageIds_perm gathered).mem_iff.mp hi

/-- Witness for C7 at a concrete gathered batch: two worker dicts whose
union has image ids `{0, 2}` (non-contiguous). -/
theorem accumulate_predictions_spec_witness :
    mergedPredictions [[(0, 10), (2, 30)], [(2, 31)]] ≠ [] ∧
    (accumulatePredictions false [[(0, 10), (2, 30)], [(2, 31)]] =
        Except.ok none ∧
      accumulatePredictions true [[(0, 10), (2, 30)], [(2, 31)]] =
        Except.ok (some (nonContiguousWarning [[(0, 10), (2, 30)], [(2, 31)]],
          (gatheredImageIds [[(0, 10), (2, 30)], [(2, 31)]]).filterMap
            (fun i =>
              (mergedPredictions [[(0, 10), (2, 30)], [(2, 31)]]).lookup i))) ∧
      (nonContiguousWarning [[(0, 10), (2, 30)], [(2, 31)]] = true ↔
        gatheredImageIds [[(0, 10), (2, 30)], [(2, 31)]] ≠
          List.range
            (gatheredImageIds [[(0, 10), (2, 30)], [(2, 31)]]).length) ∧
      ((gatheredImageIds [[(0, 10), (2, 30)], [(2, 31)]]).filterMap
          (fun i =>
            (mergedPredictions [[(0, 10), (2, 30)], [(2, 31)]]).lookup i)).length =
        (gatheredImageIds [[(0, 10), (2, 30)], [(2, 31)]]).length) :=
  ⟨by decide, accumulate_predictions_spec [[(0, 10), (2, 30)], [(2, 31)]] (by decide)⟩

/-! ## `RPNPostProcessor.forward_for_single_feature_map`
(`maskrcnn_benchmark/modeling/rpn/inference.py:78`) -/

/-- Order-isomorphic rational surrogate for `torch.sigmoid` (see the file
header): strictly increasing, injective, range `(0, 1)`; `torch.topk` and
everything downstream read scores only through comparisons. -/
def sigmoid (x : ℚ) : ℚ :=
  1/2 + x / (2 * (1 + |x|))

/-- A regression delta `(dx, dy, dw, dh)` (one row of
`box_regression.view(-1, 4)`). -/
structure Delta where
  dx : ℚ
  dy : ℚ
  dw : ℚ
  dh : ℚ
deriving DecidableEq, Repr, Inhabited

/-- Strictly increasing, everywhere positive rational surrogate for `exp`,
used only inside the box decoder; no claim depends on decoded
coordinates' values. -/
def expPos (x : ℚ) : ℚ :=
  if 0 ≤ x then 1 + x else 1 / (1 - x)

/-- The box-coder weights `(wx, wy, ww, wh)` and the
`bbox_xform_clip` bound. -/
structure BoxCoderW where
  wx : ℚ
  wy : ℚ
  ww : ℚ
  wh : ℚ
  bbox_xform_clip : ℚ
deriving Repr

/-- Modelled from the spec: `BoxCoder.decode`
(`maskrcnn_benchmark/modeling/box_coder.py`, not shipped under `src/`),
spec §4.1: the inverse transform with `dw`/`dh` clamped to
`bbox_xform_clip` before exponentiation; output in corner-corner mode. -/
def decodeBox (w : BoxCoderW) (d : Delta) (r : Box) : Box :=
  Box.mk
    (d.dx / w.wx * (r.x2 - r.x1) + (r.x1 + (r.x2 - r.x1) / 2) -
      expPos (min (d.dw / w.ww) w.bbox_xform_clip) * (r.x2 - r.x1) / 2)
    (d.dy / w.wy * (r.y2 - r.y1) + (r.y1 + (r.y2 - r.y1) / 2) -
      expPos (min (d.dh / w.wh) w.bbox_xform_clip) * (r.y2 - r.y1) / 2)
    (d.dx / w.wx * (r.x2 - r.x1) + (r.x1 + (r.x2 - r.x1) / 2) +
      expPos (min (d.dw / w.ww) w.bbox_xform_clip) * (r.x2 - r.x1) / 2)
    (d.dy / w.wy * (r.y2 - r.y1) + (r.y1 + (r.y2 - r.y1) / 2) +
      expPos (min (d.dh / w.wh) w.bbox_xform_clip) * (r.y2 - r.y1) / 2)

/-- `box_coder.decode` on paired delta/reference rows. -/
def decodeList (w : BoxCoderW) (ds : List Delta) (rs : List Box) : List Box :=
  (ds.zip rs).map (fun p => decodeBox w p.1 p.2)

/-- Modelled from the spec: `BoxList.clip_to_image(remove_empty=False)`
(`maskrcnn_benchmark/structures/bounding_box.py`, not shipped under
`src/`): clamp every coordinate into `[0, width] × [0, height]`, keeping
every box. -/
def clip_to_image (bl : BoxList) : BoxList :=
  { bl with boxes := bl.boxes.map (fun b =>
      Box.mk (min (max b.x1 0) bl.width) (min (max b.y1 0) bl.height)
        (min (max b.x2 0) bl.width) (min (max b.y2 0) bl.height)) }

/-- Modelled from the spec: `remove_small_boxes`
(`maskrcnn_benchmark/structures/boxlist_ops.py`, not shipped under
`src/`): discard every box whose width or height falls below `min_size`,
filtering all fields identically. -/
def remove_small_boxes (bl : BoxList) (minSize : ℚ) : BoxList :=
  selectMask bl
    (bl.boxes.map (fun b =>
      decide (minSize ≤ b.x2 - b.x1 ∧ minSize ≤ b.y2 - b.y1)))

/-- Intersection-over-union on corner-corner boxes; zero-area union reads
as IoU `0`. -/
def iou (a b : Box) : ℚ :=
  let inter := max 0 (min a.x2 b.x2 - max a.x1 b.x1) *
    max 0 (min a.y2 b.y2 - max a.y1 b.y1)
  let union := (a.x2 - a.x1) * (a.y2 - a.y1) + (b.x2 - b.x1) * (b.y2 - b.y1) -
    inter
  if union = 0 then 0 else inter / union

/-- One greedy NMS pass over the score-descending candidate order: accept
a candidate if its IoU with every accepted box is at most `t`, stop at
`k` acceptances. -/
def nmsGo (boxes : List Box) (t : ℚ) (k : Nat) :
    List Nat → List Nat → List Nat
  | [], acc => acc.reverse
  | i :: rest, acc =>
      if k ≤ acc.length then acc.reverse
      else if acc.all (fun j =>
          decide (iou (boxes.getD j default) (boxes.getD i default) ≤ t)) then
        nmsGo boxes t k rest (i :: acc)
      else nmsGo boxes t k rest acc

/-- Modelled from the spec: `boxlist_nms`
(`maskrcnn_benchmark/structures/boxlist_ops.py`, not shipped under
`src/`), spec §4.4: no-op for a non-positive threshold, otherwise greedy
suppression over the stable score-descending order keeping at most
`max_proposals` survivors (the source truncates `keep[:max_proposals]`,
which for a greedy keep list equals stopping at `max_proposals`
acceptances). -/
def boxlist_nms (bl : BoxList) (t : ℚ) (maxProposals : Nat) : BoxList :=
  if t ≤ 0 then bl
  else selectIdx bl
    (nmsGo bl.boxes t maxProposals (argsortDesc (getField bl "objectness")) [])

/-- `min(self.pre_nms_top_n, num_anchors)`. -/
def rpnPreNmsTopN (cfg : RPNConfig) (numAnchors : Nat) : Nat :=
  min cfg.pre_nms_top_n numAnchors

/-- `objectness.sigmoid()` on the `[N, A*H*W]`-flattened logits. -/
def rpnScores (objectness : List (List ℚ)) : List (List ℚ) :=
  objectness.map (fun row => row.map sigmoid)

/-- `objectness.topk(pre_nms_top_n, dim=1, sorted=True).indices`: one
stable descending index selection per image. -/
def rpnTopkIdx (cfg : RPNConfig) (objectness : List (List ℚ))
    (numAnchors : Nat) : List (List Nat) :=
  (rpnScores objectness).map (fun row => topk row (rpnPreNmsTopN cfg numAnchors))

/-- `objectness.topk(...).values`: the per-image filtered scores. -/
def rpnTopkScores (cfg : RPNConfig) (objectness : List (List ℚ))
    (numAnchors : Nat) : List (List ℚ) :=
  (rpnScores objectness).map
    (fun row => topkValues row (rpnPreNmsTopN cfg numAnchors))

/-- `xs[idxs]`: advanced indexing of one image's rows by an index list. -/
def gatherBy {α : Type} [Inhabited α] (xs : List α) (idxs : List Nat) :
    List α :=
  idxs.map (fun i => xs.getD i default)

/-- `box_regression[batch_idx, topk_idx]`: per image, the regression rows
at that image's top-k indices. -/
def rpnGatheredDeltas (cfg : RPNConfig) (objectness : List (List ℚ))
    (box_regression : List (List Delta)) (numAnchors : Nat) :
    List (List Delta) :=
  ((rpnTopkIdx cfg objectness numAnchors).zip box_regression).map
    (fun p => gatherBy p.2 p.1)

/-- `concat_anchors.reshape(N, -1, 4)[batch_idx, topk_idx]`: per image,
the anchor rows at the same top-k indices. -/
def rpnGatheredAnchors (cfg : RPNConfig) (objectness : List (List ℚ))
    (anchorsBoxes : List (List Box)) (numAnchors : Nat) : List (List Box) :=
  ((rpnTopkIdx cfg objectness numAnchors).zip anchorsBoxes).map
    (fun p => gatherBy p.2 p.1)

/-- `self.box_coder.decode(box_regression.view(-1, 4),
concat_anchors.view(-1, 4))` then `.view(N, -1, 4)`: flattening the
per-image gathered rows, decoding row-wise and regrouping is decoding
image by image. -/
def rpnProposals (cfg : RPNConfig) (w : BoxCoderW)
    (objectness : List (List ℚ)) (box_regression : List (List Delta))
    (anchorsBoxes : List (List Box)) (numAnchors : Nat) : List (List Box) :=
  ((rpnGatheredDeltas cfg objectness box_regression numAnchors).zip
    (rpnGatheredAnchors cfg objectness anchorsBoxes numAnchors)).map
    (fun p => decodeList w p.1 p.2)

/-- Lines 151–154 of the per-image loop: build the `BoxList` with the
filtered scores as `objectness`, clip to the image (discarding nothing),
then drop the too-small boxes. -/
def rpnSingleImage (cfg : RPNConfig) (proposal : List Box) (score : List ℚ)
    (w h : ℚ) : BoxList :=
  remove_small_boxes
    (clip_to_image (addField (BoxList.mk proposal w h []) "objectness" score))
    cfg.min_size

/-- The `for im_i, (proposal, score, im_shape) in enumerate(...)` loop of
`forward_for_single_feature_map`: each iteration builds, clips and
size-filters the image's boxlist and then calls
`get_tensor_saver().save(..., level=level, im_idx=im_i)`, whose unexpected
keywords raise `TypeError` before NMS can run. -/
def rpnImageLoop (cfg : RPNConfig) :
    List ((List Box × List ℚ) × BoxList) → Except PyErr (List BoxList)
  | [] => Except.ok []
  | ((proposal, score), a) :: rest =>
      match pythonCall saveParams rpnSaveKwargs ["after_remove_small_boxes"] with
      | Except.error e => Except.error e
      | Except.ok _ =>
          match rpnImageLoop cfg rest with
          | Except.error e => Except.error e
          | Except.ok out =>
              Except.ok
                (boxlist_nms (rpnSingleImage cfg proposal score a.width a.height)
                  cfg.nms_thresh cfg.post_nms_top_n :: out)

/-- `RPNPostProcessor.forward_for_single_feature_map(self, anchors,
objectness, box_regression, level)` on the already-flattened tensors:
sigmoid, per-image top-k, the unconditional dumps of `topk_idx[0,:]` and
`topk_idx[1,:]` (an `IndexError` unless the batch has at least two rows),
gather, decode, then the per-image loop. -/
def forward_for_single_feature_map (cfg : RPNConfig) (w : BoxCoderW)
    (numAnchors : Nat) (anchors : List BoxList)
    (objectness : List (List ℚ)) (box_regression : List (List Delta)) :
    Except PyErr (List BoxList) :=
  if objectness.length < 2 then Except.error PyErr.indexError
  else
    rpnImageLoop cfg
      (((rpnProposals cfg w objectness box_regression
            (anchors.map (fun a => a.boxes)) numAnchors).zip
          (rpnTopkScores cfg objectness numAnchors)).zip
        anchors)

/-! ## `RPNPostProcessor.add_gt_proposals` and the tail of
`RPNPostProcessor.forward` -/

/-- The field-name sequence of a boxlist. -/
def fieldNames (bl : BoxList) : List String :=
  bl.fields.map (fun f => f.1)

/-- Modelled from the spec: `BoxList.copy_with_fields(fields)`
(`maskrcnn_benchmark/structures/bounding_box.py`, not shipped under
`src/`): same boxes and size, keeping only the named fields
(`copy_with_fields([])` keeps none). -/
def copy_with_fields (bl : BoxList) (names : List String) : BoxList :=
  { bl with fields := bl.fields.filter (fun f => f.1 ∈ names) }

/-- Modelled from the spec: `cat_boxlist((a, b))`
(`maskrcnn_benchmark/structures/boxlist_ops.py`, not shipped under
`src/`): concatenate the box sequences and every field sequence (the
source asserts both collections carry the same field set). -/
def cat_boxlist2 (a b : BoxList) : BoxList :=
  { a with
    boxes := a.boxes ++ b.boxes
    fields := a.fields.map (fun f => (f.1, f.2 ++ getField b f.1)) }

/-- `RPNPostProcessor.add_gt_proposals(self, proposals, targets)`: each
target is stripped of all fields, given `objectness` = all-ones, and
concatenated after its image's proposals. -/
def add_gt_proposals (proposals targets : List BoxList) : List BoxList :=
  (proposals.zip targets).map (fun p =>
    cat_boxlist2 p.1
      (addField (copy_with_fields p.2 []) "objectness"
        (List.replicate p.2.boxes.length 1)))

/-- Lines 193–195 of `RPNPostProcessor.forward`: append ground truth only
when training and targets were passed. -/
def rpnForwardTail (training : Bool) (boxlists : List BoxList)
    (targets : Option (List BoxList)) : List BoxList :=
  if training then
    match targets with
    | some ts => add_gt_proposals boxlists ts
    | none => boxlists
  else boxlists

/-- C2: the pre-NMS top-k filter selects, independently for every image,
exactly `min(pre_nms_top_n, A*H*W)` indices of that image's flattened
sigmoid score row — distinct, in range, descending by score with stable
ties by original index — and whenever `pre_nms_top_n ≥ A*H*W` it keeps
every candidate (a permutation of all indices). -/
theorem rpn_pre_topk_spec (cfg : RPNConfig) (objectness : List (List ℚ))
    (numAnchors : Nat)
    (hrows : ∀ row ∈ objectness, row.length = numAnchors) :
    (rpnTopkIdx cfg objectness numAnchors).length = objectness.length ∧
    ∀ i, i < objectness.length →
      (rpnTopkIdx cfg objectness numAnchors).getD i [] =
        topk ((objectness.getD i []).map sigmoid)
          (min cfg.pre_nms_top_n numAnchors) ∧
      ((rpnTopkIdx cfg objectness numAnchors).getD i []).length =
        min cfg.pre_nms_top_n numAnchors ∧
      ((rpnTopkIdx cfg objectness numAnchors).getD i []).Nodup ∧
      (∀ j ∈ (rpnTopkIdx cfg objectness numAnchors).getD i [],
        j < numAnchors) ∧
      ((rpnTopkIdx cfg objectness numAnchors).getD i []).Pairwise
        (fun a b =>
          descLE ((objectness.getD i []).map sigmoid) a b = true) ∧
      (numAnchors ≤ cfg.pre_nms_top_n →
        ((rpnTopkIdx cfg objectness numAnchors).getD i []).Perm
          (List.range numAnchors)) := by
  have hlen : (rpnTopkIdx cfg objectness numAnchors).length =
      objectness.length := by
    rw [rpnTopkIdx, List.length_map, rpnScores, List.length_map]
  refine ⟨hlen, ?_⟩
  intro i hi
  have hio : i < (rpnTopkIdx cfg objectness numAnchors).length := by
    rw [hlen]; exact hi
  have his : i < (rpnScores objectness).length := by
    rw [rpnScores, List.length_map]; exact hi
  have hgd : (rpnTopkIdx cfg objectness numAnchors).getD i [] =
      topk ((objectness.getD i []).map sigmoid)
        (min cfg.pre_nms_top_n numAnchors) := by
    rw [List.getD_eq_getElem _ _ hio, List.getD_eq_getElem _ _ hi]
    simp only [rpnTopkIdx]
    rw [List.getElem_map]
    simp only [rpnScores, rpnPreNmsTopN]
    rw [List.getElem_map]
  have hrowlen : ((objectness.getD i []).map sigmoid).length = numAnchors := by
    rw [List.length_map, List.getD_eq_getElem _ _ hi]
    exact hrows _ (List.getElem_mem hi)
  refine ⟨hgd, ?_, ?_, ?_, ?_, ?_⟩
  · rw [hgd, topk_length, hrowlen]
    omega
  · rw [hgd]
    exact topk_nodup _ _
  · intro j hj
    rw [hgd] at hj
    have := topk_mem_lt _ _ hj
    rw [hrowlen] at this
    exact this
  · rw [hgd]
    exact topk_sorted _ _
  · intro hpre
    rw [hgd]
    have := topk_all ((objectness.getD i []).map sigmoid)
      (min cfg.pre_nms_top_n numAnchors) (by rw [hrowlen]; omega)
    rw [hrowlen] at this
    exact this

/-- Witness for C2: a batch of two images of two anchors each and a large
`pre_nms_top_n`. -/
theorem rpn_pre_topk_spec_witness :
    (∀ row ∈ [[(1 : ℚ), 0], [0, 2]], row.length = 2) ∧
    ((rpnTopkIdx (RPNConfig.mk 5 2 (7/10) 0 4 true) [[(1 : ℚ), 0], [0, 2]]
        2).length = ([[(1 : ℚ), 0], [0, 2]] : List (List ℚ)).length) :=
  ⟨by decide,
    (rpn_pre_topk_spec (RPNConfig.mk 5 2 (7/10) 0 4 true)
      [[(1 : ℚ), 0], [0, 2]] 2 (by decide)).1⟩

/-- C3: per image, the regression deltas and the anchor references handed
to box decoding are gathered with exactly the same top-k index list that
selected that image's scores, and decoding runs on exactly
`min(pre_nms_top_n, A*H*W)` candidates per image — strictly fewer than
`A*H*W` whenever `pre_nms_top_n < A*H*W`. -/
theorem rpn_gather_decode_spec (cfg : RPNConfig) (w : BoxCoderW)
    (objectness : List (List ℚ)) (box_regression : List (List Delta))
    (anchorsBoxes : List (List Box)) (numAnchors : Nat)
    (hreg : box_regression.length = objectness.length)
    (hanch : anchorsBoxes.length = objectness.length)
    (hrows : ∀ row ∈ objectness, row.length = numAnchors) :
    (rpnProposals cfg w objectness box_regression anchorsBoxes
        numAnchors).length = objectness.length ∧
    ∀ i, i < objectness.length →
      (rpnGatheredDeltas cfg objectness box_regression numAnchors).getD i [] =
        gatherBy (box_regression.getD i [])
          ((rpnTopkIdx cfg objectness numAnchors).getD i []) ∧
      (rpnGatheredAnchors cfg objectness anchorsBoxes numAnchors).getD i [] =
        gatherBy (anchorsBoxes.getD i [])
          ((rpnTopkIdx cfg objectness numAnchors).getD i []) ∧
      (rpnProposals cfg w objectness box_regression anchorsBoxes
          numAnchors).getD i [] =
        decodeList w
          ((rpnGatheredDeltas cfg objectness box_regression
            numAnchors).getD i [])
          ((rpnGatheredAnchors cfg objectness anchorsBoxes
            numAnchors).getD i []) ∧
      ((rpnProposals cfg w objectness box_regression anchorsBoxes
          numAnchors).getD i []).length = min cfg.pre_nms_top_n numAnchors ∧
      (cfg.pre_nms_top_n < numAnchors →
        ((rpnProposals cfg w objectness box_regression anchorsBoxes
          numAnchors).getD i []).length < numAnchors) := by
  have hidx : (rpnTopkIdx cfg objectness numAnchors).length =
      objectness.length := by
    rw [rpnTopkIdx, List.length_map, rpnScores, List.length_map]
  have hdel : (rpnGatheredDeltas cfg objectness box_regression
      numAnchors).length = objectness.length := by
    rw [rpnGatheredDeltas, List.length_map, List.length_zip, hidx, hreg]
    omega
  have hanc : (rpnGatheredAnchors cfg objectness anchorsBoxes
      numAnchors).length = objectness.length := by
    rw [rpnGatheredAnchors, List.length_map, List.length_zip, hidx, hanch]
    omega
  have hprop : (rpnProposals cfg w objectness box_regression anchorsBoxes
      numAnchors).length = objectness.length := by
    rw [rpnProposals, List.length_map, List.length_zip, hdel, hanc]
    omega
  refine ⟨hprop, ?_⟩
  intro i hi
  have hgdel : (rpnGatheredDeltas cfg objectness box_regression
      numAnchors).getD i [] =
      gatherBy (box_regression.getD i [])
        ((rpnTopkIdx cfg objectness numAnchors).getD i []) := by
    have h1 : i < (rpnGatheredDeltas cfg objectness box_regression
        numAnchors).length := by rw [hdel]; exact hi
    have h2 : i < ((rpnTopkIdx cfg objectness numAnchors).zip
        box_regression).length := by
      rw [List.length_zip, hidx, hreg]
      omega
    rw [List.getD_eq_getElem _ _ h1,
      List.getD_eq_getElem _ _ (show i < box_regression.length by omega),
      List.getD_eq_getElem _ _ (show i <
        (rpnTopkIdx cfg objectness numAnchors).length by omega)]
    simp only [rpnGatheredDeltas]
    rw [List.getElem_map, List.getElem_zip]
  have hganc : (rpnGatheredAnchors cfg objectness anchorsBoxes
      numAnchors).getD i [] =
      gatherBy (anchorsBoxes.getD i [])
        ((rpnTopkIdx cfg objectness numAnchors).getD i []) := by
    have h1 : i < (rpnGatheredAnchors cfg objectness anchorsBoxes
        numAnchors).length := by rw [hanc]; exact hi
    rw [List.getD_eq_getElem _ _ h1,
      List.getD_eq_getElem _ _ (show i < anchorsBoxes.length by omega),
      List.getD_eq_getElem _ _ (show i <
        (rpnTopkIdx cfg objectness numAnchors).length by omega)]
    simp only [rpnGatheredAnchors]
    rw [List.getElem_map, List.getElem_zip]
  have hgprop : (rpnProposals cfg w objectness box_regression anchorsBoxes
      numAnchors).getD i [] =
      decodeList w
        ((rpnGatheredDeltas cfg objectness box_regression
          numAnchors).getD i [])
        ((rpnGatheredAnchors cfg objectness anchorsBoxes
          numAnchors).getD i []) := by
    have h1 : i < (rpnProposals cfg w objectness box_regression anchorsBoxes
        numAnchors).length := by rw [hprop]; exact hi
    rw [List.getD_eq_getElem _ _ h1,
      List.getD_eq_getElem _ _ (show i < (rpnGatheredDeltas cfg objectness
        box_regression numAnchors).length by omega),
      List.getD_eq_getElem _ _ (show i < (rpnGatheredAnchors cfg objectness
        anchorsBoxes numAnchors).length by omega)]
    simp only [rpnProposals]
    rw [List.getElem_map, List.getElem_zip]
  have hidxlen : ((rpnTopkIdx cfg objectness numAnchors).getD i []).length =
      min cfg.pre_nms_top_n numAnchors := by
    have his : i < (rpnScores objectness).length := by
      rw [rpnScores, List.length_map]; exact hi
    rw [rpnTopkIdx]
    rw [getD_map_of_lt _ _ his [] []]
    rw [topk_length]
    have hrl : ((rpnScores objectness).getD i []).length = numAnchors := by
      rw [rpnScores]
      rw [getD_map_of_lt _ _ hi [] []]
      rw [List.length_map, List.getD_eq_getElem _ _ hi]
      exact hrows _ (List.getElem_mem hi)
    rw [hrl, rpnPreNmsTopN]
    omega
  have hproplen : ((rpnProposals cfg w objectness box_regression anchorsBoxes
      numAnchors).getD i []).length = min cfg.pre_nms_top_n numAnchors := by
    rw [hgprop, decodeList, List.length_map, List.length_zip, hgdel, hganc,
      gatherBy, gatherBy, List.length_map, List.length_map, hidxlen]
    omega
  exact ⟨hgdel, hganc, hgprop, hproplen, fun hlt => by rw [hproplen]; omega⟩

/-- Witness for C3: one level, two images, three anchors,
`pre_nms_top_n = 2`. -/
theorem rpn_gather_decode_spec_witness :
    (([[Delta.mk 0 0 0 0, Delta.mk 1 0 0 0, Delta.mk 0 1 0 0],
        [Delta.mk 0 0 1 0, Delta.mk 0 0 0 1, Delta.mk 1 1 0 0]] :
        List (List Delta)).length =
      ([[(1 : ℚ), 0, 2], [2, 1, 0]] : List (List ℚ)).length ∧
      ([[Box.mk 0 0 1 1, Box.mk 1 0 2 1, Box.mk 2 0 3 1],
        [Box.mk 0 1 1 2, Box.mk 1 1 2 2, Box.mk 2 1 3 2]] :
        List (List Box)).length =
      ([[(1 : ℚ), 0, 2], [2, 1, 0]] : List (List ℚ)).length ∧
      ∀ row ∈ ([[(1 : ℚ), 0, 2], [2, 1, 0]] : List (List ℚ)),
        row.length = 3) ∧
    (rpnProposals (RPNConfig.mk 2 2 (7/10) 0 4 true)
        (BoxCoderW.mk 1 1 1 1 4) [[(1 : ℚ), 0, 2], [2, 1, 0]]
        [[Delta.mk 0 0 0 0, Delta.mk 1 0 0 0, Delta.mk 0 1 0 0],
          [Delta.mk 0 0 1 0, Delta.mk 0 0 0 1, Delta.mk 1 1 0 0]]
        [[Box.mk 0 0 1 1, Box.mk 1 0 2 1, Box.mk 2 0 3 1],
          [Box.mk 0 1 1 2, Box.mk 1 1 2 2, Box.mk 2 1 3 2]] 3).length =
      ([[(1 : ℚ), 0, 2], [2, 1, 0]] : List (List ℚ)).length :=
  ⟨⟨by decide, by decide, by decide⟩,
    (rpn_gather_decode_spec (RPNConfig.mk 2 2 (7/10) 0 4 true)
      (BoxCoderW.mk 1 1 1 1 4) [[(1 : ℚ), 0, 2], [2, 1, 0]]
      [[Delta.mk 0 0 0 0, Delta.mk 1 0 0 0, Delta.mk 0 1 0 0],
        [Delta.mk 0 0 1 0, Delta.mk 0 0 0 1, Delta.mk 1 1 0 0]]
      [[Box.mk 0 0 1 1, Box.mk 1 0 2 1, Box.mk 2 0 3 1],
        [Box.mk 0 1 1 2, Box.mk 1 1 2 2, Box.mk 2 1 3 2]] 3
      (by decide) (by decide) (by decide)).1⟩

theorem zip_selfmap_filter {α : Type} (xs : List α) (p : α → Bool) :
    (((xs.zip (xs.map p)).filter (fun q => q.2)).map (fun q => q.1)) =
      xs.filter p := by
  induction xs with
  | nil => rfl
  | cons x rest ih => cases hp : p x <;> simp [hp, ih]

theorem zip_map_filter_pair {α β : Type} (xs : List α) (ys : List β)
    (p : α → Bool) (h : xs.length = ys.length) :
    (((ys.zip (xs.map p)).filter (fun q => q.2)).map (fun q => q.1)) =
      (((xs.zip ys).filter (fun q => p q.1)).map (fun q => q.2)) := by
  induction xs generalizing ys with
  | nil =>
      cases ys with
      | nil => rfl
      | cons y yrest => simp at h
  | cons x rest ih =>
      cases ys with
      | nil => simp at h
      | cons y yrest =>
          have h' : rest.length = yrest.length := by simpa using h
          cases hp : p x <;> simp [hp, ih _ h']

theorem getField_selectMask (bl : BoxList) (m : List Bool) (name : String) :
    getField (selectMask bl m) name =
      (((getField bl name).zip m).filter (fun q => q.2)).map (fun q => q.1) := by
  rw [getField, selectMask]
  simp only
  rw [lookup_map_snd bl.fields
    (fun _ v => ((v.zip m).filter (fun q => q.2)).map (fun q => q.1)) name]
  cases h : bl.fields.lookup name
  · simp [getField, h]
  · simp [getField, h]

theorem getField_addField_self (bl : BoxList) (name : String)
    (vals : List ℚ) : getField (addField bl name vals) name = vals := by
  simp [getField, addField]

/-- C4: per image the decoder builds a collection whose `objectness` is
the filtered score row, clips every box into the image bounds without
discarding any (a fully-outside box clips to zero area but stays), and
only afterwards removes — entirely, whatever its score — every box whose
width or height falls below `min_size`, filtering the scores identically. -/
theorem rpn_clip_minsize_spec (cfg : RPNConfig) (proposal : List Box)
    (score : List ℚ) (wd ht : ℚ) (hs : score.length = proposal.length)
    (hw : 0 ≤ wd) (hh : 0 ≤ ht) :
    getField (addField (BoxList.mk proposal wd ht []) "objectness" score)
      "objectness" = score ∧
    (clip_to_image (addField (BoxList.mk proposal wd ht [])
      "objectness" score)).boxes.length = proposal.length ∧
    (∀ b ∈ (clip_to_image (addField (BoxList.mk proposal wd ht [])
        "objectness" score)).boxes,
      0 ≤ b.x1 ∧ b.x1 ≤ wd ∧ 0 ≤ b.y1 ∧ b.y1 ≤ ht ∧
        0 ≤ b.x2 ∧ b.x2 ≤ wd ∧ 0 ≤ b.y2 ∧ b.y2 ≤ ht) ∧
    (∀ b ∈ proposal, b.x1 ≤ b.x2 → b.y1 ≤ b.y2 →
      (b.x2 ≤ 0 ∨ wd ≤ b.x1 ∨ b.y2 ≤ 0 ∨ ht ≤ b.y1) →
      Box.mk (min (max b.x1 0) wd) (min (max b.y1 0) ht)
          (min (max b.x2 0) wd) (min (max b.y2 0) ht) ∈
        (clip_to_image (addField (BoxList.mk proposal wd ht [])
          "objectness" score)).boxes ∧
      (min (max b.x2 0) wd - min (max b.x1 0) wd) *
        (min (max b.y2 0) ht - min (max b.y1 0) ht) = 0) ∧
    (rpnSingleImage cfg proposal score wd ht).boxes =
      (clip_to_image (addField (BoxList.mk proposal wd ht [])
        "objectness" score)).boxes.filter
        (fun b => decide (cfg.min_size ≤ b.x2 - b.x1 ∧
          cfg.min_size ≤ b.y2 - b.y1)) ∧
    getField (rpnSingleImage cfg proposal score wd ht) "objectness" =
      List.map (fun q => q.2)
        (List.filter
          (fun q => decide (cfg.min_size ≤ q.1.x2 - q.1.x1 ∧
            cfg.min_size ≤ q.1.y2 - q.1.y1))
          ((clip_to_image (addField (BoxList.mk proposal wd ht [])
            "objectness" score)).boxes.zip score)) := by
  have hobj : getField (addField (BoxList.mk proposal wd ht [])
      "objectness" score) "objectness" = score :=
    getField_addField_self _ _ _
  refine ⟨hobj, ?_, ?_, ?_, ?_, ?_⟩
  · rw [clip_to_image]
    simp [addField]
  · intro b hb
    rw [clip_to_image] at hb
    simp only [addField, List.mem_map] at hb
    obtain ⟨c, _, rfl⟩ := hb
    refine ⟨le_min (le_max_right _ _) hw, min_le_right _ _,
      le_min (le_max_right _ _) hh, min_le_right _ _,
      le_min (le_max_right _ _) hw, min_le_right _ _,
      le_min (le_max_right _ _) hh, min_le_right _ _⟩
  · intro b hb hx12 hy12 hout
    constructor
    · rw [clip_to_image]
      simp only [addField, List.mem_map]
      exact ⟨b, hb, rfl⟩
    · rcases hout with h | h | h | h
      · have e2 : max b.x2 0 = 0 := max_eq_right h
        have e1 : max b.x1 0 = 0 := max_eq_right (le_trans hx12 h)
        rw [e1, e2, sub_self, zero_mul]
      · have e1 : min (max b.x1 0) wd = wd :=
          min_eq_right (le_trans h (le_max_left _ _))
        have e2 : min (max b.x2 0) wd = wd :=
          min_eq_right (le_trans (le_trans h hx12) (le_max_left _ _))
        rw [e1, e2, sub_self, zero_mul]
      · have e2 : max b.y2 0 = 0 := max_eq_right h
        have e1 : max b.y1 0 = 0 := max_eq_right (le_trans hy12 h)
        rw [e1, e2, sub_self, mul_zero]
      · have e1 : min (max b.y1 0) ht = ht :=
          min_eq_right (le_trans h (le_max_left _ _))
        have e2 : min (max b.y2 0) ht = ht :=
          min_eq_right (le_trans (le_trans h hy12) (le_max_left _ _))
        rw [e1, e2, sub_self, mul_zero]
  · rw [rpnSingleImage, remove_small_boxes, selectMask]
    simp only
    exact zip_selfmap_filter _ _
  · rw [rpnSingleImage, remove_small_boxes]
    rw [getField_selectMask]
    have hcobj : getField (clip_to_image (addField
        (BoxList.mk proposal wd ht []) "objectness" score)) "objectness" =
        score := by
      rw [clip_to_image]
      exact hobj
    rw [hcobj]
    refine zip_map_filter_pair _ _ _ ?_
    rw [clip_to_image]
    simp [addField, hs]

/-- Witness for C4: the spec's scenario — a decoded box of width `1/2`
inside a `10 × 10` image, removed by `min_size = 1` despite being the only
(hence best-scored) candidate. -/
theorem rpn_clip_minsize_spec_witness :
    (([(9 : ℚ)/10] : List ℚ).length =
        ([Box.mk 0 0 (1/2) 2] : List Box).length ∧
      (0 : ℚ) ≤ 10 ∧ (0 : ℚ) ≤ 10) ∧
    (rpnSingleImage (RPNConfig.mk 4 2 (7/10) 1 4 true)
        [Box.mk 0 0 (1/2) 2] [(9 : ℚ)/10] 10 10).boxes =
      (clip_to_image (addField
        (BoxList.mk [Box.mk 0 0 (1/2) 2] 10 10 []) "objectness"
        [(9 : ℚ)/10])).boxes.filter
        (fun b => decide ((1 : ℚ) ≤ b.x2 - b.x1 ∧ (1 : ℚ) ≤ b.y2 - b.y1)) :=
  ⟨⟨by decide, by decide, by decide⟩,
    (rpn_clip_minsize_spec (RPNConfig.mk 4 2 (7/10) 1 4 true)
      [Box.mk 0 0 (1/2) 2] [(9 : ℚ)/10] 10 10 (by decide) (by decide)
      (by decide)).2.2.2.2.1⟩

theorem rpnImageLoop_cons (cfg : RPNConfig)
    (x : (List Box × List ℚ) × BoxList)
    (rest : List ((List Box × List ℚ) × BoxList)) :
    rpnImageLoop cfg (x :: rest) = Except.error PyErr.typeError := by
  obtain ⟨⟨p, s⟩, a⟩ := x
  rfl

/-- C8: `forward_for_single_feature_map` dumps rows 0 and 1 of the
per-image top-k index tensor before any per-image work, so it raises
`IndexError` exactly when the batch holds fewer than two images; in
particular a single-image batch fails on that indexing even though the
remaining processing is per-image. -/
theorem forward_single_map_needs_two_images (cfg : RPNConfig) (w : BoxCoderW)
    (numAnchors : Nat) (anchors : List BoxList)
    (objectness : List (List ℚ)) (box_regression : List (List Delta))
    (hreg : box_regression.length = objectness.length)
    (hanch : anchors.length = objectness.length) :
    forward_for_single_feature_map cfg w numAnchors anchors objectness
        box_regression = Except.error PyErr.indexError ↔
      objectness.length < 2 := by
  constructor
  · intro hfm
    by_contra hN
    push_neg at hN
    have hzl : ((((rpnProposals cfg w objectness box_regression
          (anchors.map (fun a => a.boxes)) numAnchors).zip
        (rpnTopkScores cfg objectness numAnchors)).zip anchors)).length =
        objectness.length := by
      simp only [rpnProposals, rpnGatheredDeltas, rpnGatheredAnchors,
        rpnTopkIdx, rpnTopkScores, rpnScores, List.length_zip,
        List.length_map, hreg, hanch]
      omega
    rw [forward_for_single_feature_map, if_neg (by omega)] at hfm
    cases hL : (((rpnProposals cfg w objectness box_regression
        (anchors.map (fun a => a.boxes)) numAnchors).zip
      (rpnTopkScores cfg objectness numAnchors)).zip anchors) with
    | nil =>
        rw [hL] at hzl
        simp at hzl
        omega
    | cons x xs =>
        rw [hL, rpnImageLoop_cons] at hfm
        simp at hfm
  · intro h
    rw [forward_for_single_feature_map, if_pos h]

/-- Witness for C8 at a single-image batch (one image, two anchors): the
call fails with `IndexError`. -/
theorem forward_single_map_needs_two_images_witness :
    (([[Delta.mk 0 0 0 0, Delta.mk 1 0 0 0]] : List (List Delta)).length =
        ([[(1 : ℚ), 0]] : List (List ℚ)).length ∧
      ([BoxList.mk [Box.mk 0 0 1 1, Box.mk 1 0 2 1] 10 10 []] :
        List BoxList).length = ([[(1 : ℚ), 0]] : List (List ℚ)).length) ∧
    (forward_for_single_feature_map (RPNConfig.mk 2 2 (7/10) 0 4 true)
        (BoxCoderW.mk 1 1 1 1 4) 2
        [BoxList.mk [Box.mk 0 0 1 1, Box.mk 1 0 2 1] 10 10 []]
        [[(1 : ℚ), 0]] [[Delta.mk 0 0 0 0, Delta.mk 1 0 0 0]] =
        Except.error PyErr.indexError ↔
      ([[(1 : ℚ), 0]] : List (List ℚ)).length < 2) :=
  ⟨⟨by decide, by decide⟩,
    forward_single_map_needs_two_images (RPNConfig.mk 2 2 (7/10) 0 4 true)
      (BoxCoderW.mk 1 1 1 1 4) 2
      [BoxList.mk [Box.mk 0 0 1 1, Box.mk 1 0 2 1] 10 10 []]
      [[(1 : ℚ), 0]] [[Delta.mk 0 0 0 0, Delta.mk 1 0 0 0]]
      (by decide) (by decide)⟩

theorem getField_cat_boxlist2 (a b : BoxList) (name : String) :
    getField (cat_boxlist2 a b) name =
      match a.fields.lookup name with
      | none => []
      | some v => v ++ getField b name := by
  rw [getField, cat_boxlist2]
  simp only
  rw [lookup_map_snd a.fields (fun n v => v ++ getField b n) name]
  cases h : a.fields.lookup name
  · simp
  · simp

theorem fieldNames_cat_boxlist2 (a b : BoxList) :
    fieldNames (cat_boxlist2 a b) = fieldNames a := by
  rw [fieldNames, cat_boxlist2]
  simp only
  rw [List.map_map]
  rfl

/-- C6: during training with targets, each image's ground-truth boxes are
concatenated after its selected proposals, carrying `objectness = 1.0` and
no field inherited from the target (the stripped copy has no fields, and
the output's field names are exactly the proposals'); in inference mode
the forward tail returns the proposals untouched, so no ground-truth box
is added. -/
theorem add_gt_proposals_spec (boxlists ts : List BoxList)
    (targets' : Option (List BoxList))
    (hpres : ∀ bl ∈ boxlists, (bl.fields.lookup "objectness").isSome) :
    (rpnForwardTail true boxlists (some ts)).length =
      min boxlists.length ts.length ∧
    (∀ i, i < boxlists.length → i < ts.length →
      ((rpnForwardTail true boxlists (some ts)).getD i default).boxes =
        (boxlists.getD i default).boxes ++ (ts.getD i default).boxes ∧
      getField ((rpnForwardTail true boxlists (some ts)).getD i default)
        "objectness" =
        getField (boxlists.getD i default) "objectness" ++
          List.replicate (ts.getD i default).boxes.length 1 ∧
      fieldNames ((rpnForwardTail true boxlists (some ts)).getD i default) =
        fieldNames (boxlists.getD i default)) ∧
    (∀ t : BoxList, (copy_with_fields t []).fields = []) ∧
    rpnForwardTail false boxlists targets' = boxlists := by
  have htail : rpnForwardTail true boxlists (some ts) =
      add_gt_proposals boxlists ts := rfl
  have hlen : (rpnForwardTail true boxlists (some ts)).length =
      min boxlists.length ts.length := by
    rw [htail, add_gt_proposals, List.length_map, List.length_zip]
  refine ⟨hlen, ?_, ?_, rfl⟩
  · intro i hib hit
    have hio : i < (rpnForwardTail true boxlists (some ts)).length := by
      rw [hlen]; omega
    have hgd : (rpnForwardTail true boxlists (some ts)).getD i default =
        cat_boxlist2 (boxlists.getD i default)
          (addField (copy_with_fields (ts.getD i default) []) "objectness"
            (List.replicate (ts.getD i default).boxes.length 1)) := by
      rw [List.getD_eq_getElem _ _ hio,
        List.getD_eq_getElem _ _ hib, List.getD_eq_getElem _ _ hit]
      simp only [htail, add_gt_proposals]
      rw [List.getElem_map, List.getElem_zip]
    refine ⟨?_, ?_, ?_⟩
    · rw [hgd]
      simp [cat_boxlist2, addField, copy_with_fields]
    · rw [hgd, getField_cat_boxlist2]
      have hmem : boxlists.getD i default ∈ boxlists := by
        rw [List.getD_eq_getElem _ _ hib]
        exact List.getElem_mem hib
      obtain ⟨v, hv⟩ :=
        Option.isSome_iff_exists.mp (hpres _ hmem)
      rw [hv]
      have hgfa : getField (boxlists.getD i default) "objectness" = v := by
        rw [getField, hv]
        rfl
      rw [hgfa, getField_addField_self]
    · rw [hgd, fieldNames_cat_boxlist2]
  · intro t
    rw [copy_with_fields]
    simp

/-- Witness for C6: one image with one selected proposal and one
ground-truth box. -/
theorem add_gt_proposals_spec_witness :
    (∀ bl ∈ [BoxList.mk [Box.mk 0 0 1 1] 10 10 [("objectness", [3/4])]],
      (bl.fields.lookup "objectness").isSome) ∧
    ((rpnForwardTail true
        [BoxList.mk [Box.mk 0 0 1 1] 10 10 [("objectness", [3/4])]]
        (some [BoxList.mk [Box.mk 2 2 5 5] 10 10
          [("labels", [1])]])).length =
      min ([BoxList.mk [Box.mk 0 0 1 1] 10 10
          [("objectness", [3/4])]] : List BoxList).length
        ([BoxList.mk [Box.mk 2 2 5 5] 10 10
          [("labels", [1])]] : List BoxList).length) :=
  ⟨by decide,
    (add_gt_proposals_spec
      [BoxList.mk [Box.mk 0 0 1 1] 10 10 [("objectness", [3/4])]]
      [BoxList.mk [Box.mk 2 2 5 5] 10 10 [("labels", [1])]]
      none (by decide)).1⟩

/-- C10: `TensorSaver.step` treats an explicit iteration of `0` like no
argument: any nonzero `k` is stored as the new iteration, while `step()`
and `step(0)` both increment the stored iteration; the explicit-set branch
can therefore never put `0` into the counter — whenever the counter reads
`0` after a step, that step was an increment. -/
theorem tensor_saver_step_spec (s : TensorSaver) (k : Int) (hk : k ≠ 0) :
    (s.step (some k)).iteration = k ∧
    s.step none = { s with iteration := s.iteration + 1 } ∧
    s.step (some 0) = { s with iteration := s.iteration + 1 } ∧
    (∀ it : Option Int, (s.step it).iteration = 0 →
      (s.step it).iteration = s.iteration + 1) := by
  refine ⟨?_, ?_, ?_, ?_⟩
  · simp [TensorSaver.step, pyTruthy, hk]
  · simp [TensorSaver.step, pyTruthy]
  · simp [TensorSaver.step, pyTruthy]
  · intro it hit
    match it with
    | none => rfl
    | some m =>
        by_cases hm : m = 0
        · subst hm
          rfl
        · rw [TensorSaver.step] at hit
          simp [pyTruthy, hm] at hit

/-- Witness for C10 at the saver state `iteration = 7` and `k = 5`. -/
theorem tensor_saver_step_spec_witness :
    (5 : Int) ≠ 0 ∧
    ((TensorSaver.mk "d" 7).step (some 5)).iteration = 5 ∧
    (TensorSaver.mk "d" 7).step none =
      { TensorSaver.mk "d" 7 with iteration := (TensorSaver.mk "d" 7).iteration + 1 } ∧
    (TensorSaver.mk "d" 7).step (some 0) =
      { TensorSaver.mk "d" 7 with iteration := (TensorSaver.mk "d" 7).iteration + 1 } ∧
    (∀ it : Option Int, ((TensorSaver.mk "d" 7).step it).iteration = 0 →
      ((TensorSaver.mk "d" 7).step it).iteration =
        (TensorSaver.mk "d" 7).iteration + 1) :=
  ⟨by decide, tensor_saver_step_spec (TensorSaver.mk "d" 7) 5 (by decide)⟩

/-- C9: `create_tensor_saver` accepts only `base_dir`/`iteration` and
`TensorSaver.save` only `tensor`/`tensor_name`/`scope`/`save_grad`; the
driver calls that pass `training`/`max_iter` and the RPN call that passes
`level`/`im_idx` all fail keyword binding with `TypeError`, so the body —
the file write — never runs; a call supplying only accepted keywords binds,
and any single unexpected keyword fails. -/
theorem tensor_saver_call_spec (body b2 b3 : List String) (k : String)
    (hk : saveParams.contains k = false) :
    pythonCall createTensorSaverParams driverCreateKwargs body =
      Except.error PyErr.typeError ∧
    pythonCall saveParams rpnSaveKwargs b2 = Except.error PyErr.typeError ∧
    pythonCall saveParams saveParams b3 = Except.ok b3 ∧
    pythonCall saveParams [k] b3 = Except.error PyErr.typeError := by
  refine ⟨rfl, rfl, rfl, ?_⟩
  have hk' : k ∉ saveParams := by simpa using hk
  simp [pythonCall, hk']

/-- Witness for C9 with the unexpected keyword `level` and the concrete
file lists the bodies would have written. -/
theorem tensor_saver_call_spec_witness :
    saveParams.contains "level" = false ∧
    (pythonCall createTensorSaverParams driverCreateKwargs ["f1"] =
        Except.error PyErr.typeError ∧
      pythonCall saveParams rpnSaveKwargs ["f2"] =
        Except.error PyErr.typeError ∧
      pythonCall saveParams saveParams ["f3"] = Except.ok ["f3"] ∧
      pythonCall saveParams ["level"] ["f3"] = Except.error PyErr.typeError) :=
  ⟨by decide, tensor_saver_call_spec ["f1"] ["f2"] ["f3"] "level" (by decide)⟩

end MRCNN
